import Mathlib

/-!
# Tune Trivia — verification of the shared game-state core

Shallow embedding of the round-scoped game state machine of the Tune Trivia
party game (src/App.tsx, src/types.ts, src/constants.tsx).  The game state is
the single shared room document; host and player actions are modelled as pure
functions on that document, transactions as atomic state transformers, and the
firebase snapshot sanitiser as a total function over a dynamic JSON-like value
type.
-/

namespace TuneTrivia

/-- Game phases, from `GamePhase` in src/types.ts. -/
inductive GamePhase where
  | LOBBY
  | PROMPT
  | SUBMITTING
  | LISTENING
  | VOTING
  | REVEAL
  | SCOREBOARD
  | FINAL
deriving DecidableEq, Repr

/-- A song, from `Song` in src/types.ts (previewUrl is optional and unused by
the core logic; omitted). -/
structure Song where
  id : String
  title : String
  artist : String
  albumArt : String
deriving DecidableEq, Repr

/-- A player, from `Player` in src/types.ts. -/
structure Player where
  id : String
  name : String
  score : Int
  isHost : Bool
  avatar : String
deriving DecidableEq, Repr

/-- A submission as actually stored by App.tsx: the `Submission` of
src/types.ts extended with the `roundId` tag that every write adds
(App.tsx:1013) and that the sanitiser guarantees (App.tsx:403). -/
structure Submission where
  playerId : String
  song : Song
  roundId : Int
deriving DecidableEq, Repr

/-- A guess as stored by App.tsx: `Guess` of src/types.ts plus the `roundId`
tag (App.tsx:1114-1119, sanitised at App.tsx:415). -/
structure Guess where
  voterId : String
  submissionId : String
  targetPlayerId : String
  roundId : Int
deriving DecidableEq, Repr

/-- The room document, from `GameState` in src/types.ts plus the `roundId`
field App.tsx adds (App.tsx:209, 876).  All clients mirror this document via
the store subscription; the embedding works directly on the document. -/
structure GameState where
  roomId : String
  phase : GamePhase
  currentQuestionIndex : Nat
  questions : List String
  players : List Player
  submissions : List Submission
  guesses : List Guess
  currentRevealIndex : Nat
  roundId : Int
deriving DecidableEq, Repr

/-- The built-in prompt list, from `INITIAL_QUESTIONS` in src/constants.tsx. -/
def INITIAL_QUESTIONS : List String :=
  [ "The perfect song for a Sunday Roast session.",
    "Your ultimate 'Guilty Pleasure' track.",
    "The song you want playing when you walk into a crowded room.",
    "The track that always makes you want to speed while driving.",
    "A song that reminds you of your first heartbreak.",
    "The best song to clean the whole house to.",
    "A song that describes your current mood perfectly.",
    "The track you'd choose for a karaoke deathmatch.",
    "A song that always makes you think of your best friend.",
    "The song you want played at your funeral (ironically or not)." ]

/-- Round-scoped composite key, from `submissionKey` (App.tsx:303):
the template string `${rid}:${songId}`. -/
def submissionKey (songId : String) (rid : Int) : String :=
  toString rid ++ ":" ++ songId

/-- Derived current-round submissions view, from the derived array
`submissions` (App.tsx:780-782): filter on `(s.roundId ?? 0) === roundId`
(the tag is always present after sanitisation). -/
def currentSubmissions (s : GameState) : List Submission :=
  s.submissions.filter (fun x => x.roundId == s.roundId)

/-- Derived current-round guesses view, from the derived array `guesses`
(App.tsx:783). -/
def currentGuesses (s : GameState) : List Guess :=
  s.guesses.filter (fun g => g.roundId == s.roundId)

/-- Non-host players, from `nonHostPlayers` (App.tsx:785-787). -/
def nonHostPlayers (s : GameState) : List Player :=
  s.players.filter (fun p => !p.isHost)

/-- Whether the client with id `pid` is the host, from `myPlayer` /
`isHost` (App.tsx:442-445): look the id up in the synced roster and read its
`isHost` flag. -/
def isHostOf (s : GameState) (pid : String) : Bool :=
  match s.players.find? (fun p => p.id == pid) with
  | some p => p.isHost
  | none => false

/-- The `allGuessesCompleted` derived boolean (App.tsx:795-802): the
mystery submissions are the current-round submissions not authored by the
voter; the flag demands the list be non-empty and every mystery submission be
covered by one of the voter's current-round guesses. -/
def allGuessesCompleted (s : GameState) (voterId : String) : Bool :=
  let mysterySubmissions :=
    (currentSubmissions s).filter (fun x => !(x.playerId == voterId))
  let myGuesses := (currentGuesses s).filter (fun g => g.voterId == voterId)
  decide (mysterySubmissions.length > 0) &&
    mysterySubmissions.all (fun x =>
      myGuesses.any (fun g => g.submissionId == submissionKey x.song.id s.roundId))

/-! ## Host and player operations (App.tsx game actions) -/

/-- One step of the Fisher–Yates swap `[a[i], a[j]] = [a[j], a[i]]`
(App.tsx:298), as a list operation; out-of-range indices leave the list
unchanged (never hit by the loop). -/
def swapList {α : Type} (a : List α) (i j : Nat) : List α :=
  match a.get? i, a.get? j with
  | some x, some y => (a.set i y).set j x
  | _, _ => a

/-- The shuffle loop body of `shuffle` (App.tsx:294-301), iterating
`i = n, n-1, ..., 1`; the random draw `Math.floor(Math.random()*(i+1))` is
modelled by `rand i % (i+1)`, which ranges over exactly `0..i`. -/
def shuffleAux {α : Type} (rand : Nat → Nat) : Nat → List α → List α
  | 0, a => a
  | Nat.succ k, a => shuffleAux rand k (swapList a (k + 1) (rand (k + 1) % (k + 2)))

/-- `shuffle` (App.tsx:294-301): Fisher–Yates over a copy of the array,
parameterised by the source of randomness. -/
def shuffle {α : Type} (rand : Nat → Nat) (arr : List α) : List α :=
  shuffleAux rand (arr.length - 1) arr

/-- `startGame` (App.tsx:943-973).  `svc` is the awaited outcome of the
Question Generation service call: `none` models a thrown error (caught by the
surrounding try/catch), `some l` a returned list; a returned empty list also
falls back to `INITIAL_QUESTIONS` (`if (generated.length > 0)`).  Requires
the acting client to be host and at least 2 non-host players. -/
def startGame (s : GameState) (hostId : String)
    (svc : Option (List String)) (rand : Nat → Nat) : GameState :=
  if !(isHostOf s hostId) then s
  else if (nonHostPlayers s).length < 2 then s
  else
    let questions :=
      match svc with
      | some generated => if generated.length > 0 then generated else INITIAL_QUESTIONS
      | none => INITIAL_QUESTIONS
    { s with
        questions := shuffle rand questions
        currentQuestionIndex := 0
        roundId := 0
        phase := GamePhase.PROMPT
        submissions := []
        guesses := []
        currentRevealIndex := 0 }

/-- `openSubmissions` (App.tsx:975-990): host-only; sets phase SUBMITTING,
clears the submissions and guesses arrays, resets the reveal index, and
re-writes the current `roundId`. -/
def openSubmissions (s : GameState) (hostId : String) : GameState :=
  if !(isHostOf s hostId) then s
  else
    { s with
        phase := GamePhase.SUBMITTING
        submissions := []
        guesses := []
        currentRevealIndex := 0 }

/-- `submitSong` (App.tsx:992-1023).  The guard `if (!currentPlayerId)` is
the JS truthiness check on the player id; `if (isHost)` rejects the host.
The transaction body re-derives the current-round view from the fresh
document, no-ops when the player already has a current-round submission,
otherwise appends the tagged submission and, when the new current-round count
reaches the non-host player count, atomically moves the phase to LISTENING. -/
def submitSong (s : GameState) (pid : String) (song : Song) : GameState :=
  if pid == "" then s
  else if isHostOf s pid then s
  else
    let rid := s.roundId
    let playingPlayers := s.players.filter (fun p => !p.isHost)
    let subsThisRound := s.submissions.filter (fun x => x.roundId == rid)
    if subsThisRound.any (fun x => x.playerId == pid) then s
    else
      let subs' := s.submissions ++ [{ playerId := pid, song := song, roundId := rid }]
      let newCount := (subs'.filter (fun x => x.roundId == rid)).length
      if newCount ≥ playingPlayers.length then
        { s with
            submissions := subs'
            phase := GamePhase.LISTENING
            currentRevealIndex := 0 }
      else { s with submissions := subs' }

/-- `submitGuess` (App.tsx:1093-1123).  The composite key is computed from
the synced `roundId` (App.tsx:1097); inside the transaction any existing
current-round guess by the same voter for the same key is removed and the new
guess is appended, in one atomic write. -/
def submitGuess (s : GameState) (pid songId targetPlayerId : String) : GameState :=
  if pid == "" then s
  else if isHostOf s pid then s
  else
    let key := submissionKey songId s.roundId
    let rid := s.roundId
    let guesses' := s.guesses.filter (fun g =>
      !(g.roundId == rid && g.voterId == pid && g.submissionId == key))
    { s with
        guesses := guesses' ++
          [{ voterId := pid, submissionId := key, targetPlayerId := targetPlayerId,
             roundId := rid }] }

/-- `forceStartListening` (App.tsx:1081-1085): host-only phase write. -/
def forceStartListening (s : GameState) (hostId : String) : GameState :=
  if !(isHostOf s hostId) then s
  else { s with phase := GamePhase.LISTENING, currentRevealIndex := 0 }

/-- `startVoting` (App.tsx:1087-1091): host-only phase write. -/
def startVoting (s : GameState) (hostId : String) : GameState :=
  if !(isHostOf s hostId) then s
  else { s with phase := GamePhase.VOTING }

/-- `finalizeGuesses` (App.tsx:1125-1129): host-only phase write. -/
def finalizeGuesses (s : GameState) (hostId : String) : GameState :=
  if !(isHostOf s hostId) then s
  else { s with phase := GamePhase.REVEAL, currentRevealIndex := 0 }

/-- JS `Map.set` on an association list: replace the value in place when the
key exists, otherwise append. -/
def mapSet (m : List (String × String)) (k v : String) : List (String × String) :=
  if m.any (fun p => p.1 == k) then
    m.map (fun p => if p.1 == k then (k, v) else p)
  else m ++ [(k, v)]

/-- JS `Map.get`: `some` value of the first matching key, else `none`
(undefined). -/
def mapGet (m : List (String × String)) (k : String) : Option String :=
  (m.find? (fun p => p.1 == k)).map (fun p => p.2)

/-- The `ownerByKey` map of `nextReveal` (App.tsx:1153-1154): for each
current-round submission, map its composite key to its author. -/
def buildOwnerMap (subs : List Submission) (rid : Int) : List (String × String) :=
  subs.foldl (fun m x => mapSet m (submissionKey x.song.id rid) x.playerId) []

/-- The per-player correct-guess counter of `nextReveal` (App.tsx:1158-1163):
over the player's current-round guesses, count those whose key resolves in
`ownerByKey` to a truthy (non-empty) owner equal to the guessed target
(`actualOwner && actualOwner === g.targetPlayerId`). -/
def correctCount (s : GameState) (pid : String) : Nat :=
  let ownerByKey := buildOwnerMap (currentSubmissions s) s.roundId
  let my := (currentGuesses s).filter (fun g => g.voterId == pid)
  my.countP (fun g =>
    match mapGet ownerByKey g.submissionId with
    | some actualOwner => !(actualOwner == "") && actualOwner == g.targetPlayerId
    | none => false)

/-- `nextReveal` (App.tsx:1142-1168).  Host-only.  When not at the last
current-round submission (`currentRevealIndex >= submissions.length - 1`,
with JS semantics preserved by truncated subtraction), just advance the
reveal index; at the last one, score every non-host player (+10 per correct
guess) and write the updated roster together with phase SCOREBOARD. -/
def nextReveal (s : GameState) (hostId : String) : GameState :=
  if !(isHostOf s hostId) then s
  else if s.currentRevealIndex ≥ (currentSubmissions s).length - 1 then
    let updatedPlayers := s.players.map (fun p =>
      if p.isHost then p
      else { p with score := p.score + (correctCount s p.id : Int) * 10 })
    { s with players := updatedPlayers, phase := GamePhase.SCOREBOARD }
  else { s with currentRevealIndex := s.currentRevealIndex + 1 }

/-- `nextQuestion` (App.tsx:1170-1194).  Host-only.  At
`currentQuestionIndex >= 9` the game ends (phase FINAL); otherwise advance
the question index, increment `roundId`, return to PROMPT and clear the
submissions/guesses arrays. -/
def nextQuestion (s : GameState) (hostId : String) : GameState :=
  if !(isHostOf s hostId) then s
  else if s.currentQuestionIndex ≥ 9 then { s with phase := GamePhase.FINAL }
  else
    { s with
        currentQuestionIndex := s.currentQuestionIndex + 1
        roundId := s.roundId + 1
        phase := GamePhase.PROMPT
        submissions := []
        guesses := []
        currentRevealIndex := 0 }

/-- `resetRoomData` (App.tsx:1196-1207).  Host-only: returns the room to
LOBBY and wipes submissions, guesses and the round counters. -/
def resetRoomData (s : GameState) (hostId : String) : GameState :=
  if !(isHostOf s hostId) then s
  else
    { s with
        phase := GamePhase.LOBBY
        currentQuestionIndex := 0
        roundId := 0
        submissions := []
        guesses := []
        currentRevealIndex := 0 }

/-! ## UI-gated action surface

The handlers above carry no phase checks of their own; each is reachable only
through the control rendered by the view for one specific phase.  `Act`
enumerates the document-mutating actions and `actEnabled` records the phase
gate of the view that renders each control. -/

/-- The document-mutating actions a client can trigger from the UI. -/
inductive Act where
  | startGame (svc : Option (List String)) (rand : Nat → Nat)
  | openSubmissions
  | submitSong (pid : String) (song : Song)
  | forceStartListening
  | startVoting
  | submitGuess (pid songId targetPlayerId : String)
  | finalizeGuesses
  | nextReveal
  | nextQuestion
  | resetRoom

/-- The phase under which each action's control is rendered: start in the
LOBBY view (App.tsx:1323); open submissions in the PROMPT section
(App.tsx:1530); song submission UI and the force-listen button in the
SUBMITTING section (App.tsx:1544, 1576); start voting in LISTENING
(App.tsx:1757); guess UI and finalize in VOTING (App.tsx:1825, 1849); the
reveal-advance button in REVEAL (App.tsx:2052); next question from the
SCOREBOARD view (handler App.tsx:1170; the SCOREBOARD view wiring the button,
gated on that phase, is in the repository variant src/unnamed/part_000:827);
reset from the settings dialog of the main in-game shell, which renders for
every phase other than LOBBY (App.tsx:1343-1512, button at 1483). -/
def actEnabled (s : GameState) : Act → Bool
  | Act.startGame _ _ => s.phase == GamePhase.LOBBY
  | Act.openSubmissions => s.phase == GamePhase.PROMPT
  | Act.submitSong _ _ => s.phase == GamePhase.SUBMITTING
  | Act.forceStartListening => s.phase == GamePhase.SUBMITTING
  | Act.startVoting => s.phase == GamePhase.LISTENING
  | Act.submitGuess _ _ _ => s.phase == GamePhase.VOTING
  | Act.finalizeGuesses => s.phase == GamePhase.VOTING
  | Act.nextReveal => s.phase == GamePhase.REVEAL
  | Act.nextQuestion => s.phase == GamePhase.SCOREBOARD
  | Act.resetRoom => s.phase != GamePhase.LOBBY

/-- One UI step: apply the handler when its control is rendered, otherwise
leave the document unchanged. -/
def applyAct (hostId : String) (s : GameState) (a : Act) : GameState :=
  if !(actEnabled s a) then s
  else
    match a with
    | Act.startGame svc rand => startGame s hostId svc rand
    | Act.openSubmissions => openSubmissions s hostId
    | Act.submitSong pid song => submitSong s pid song
    | Act.forceStartListening => forceStartListening s hostId
    | Act.startVoting => startVoting s hostId
    | Act.submitGuess pid songId t => submitGuess s pid songId t
    | Act.finalizeGuesses => finalizeGuesses s hostId
    | Act.nextReveal => nextReveal s hostId
    | Act.nextQuestion => nextQuestion s hostId
    | Act.resetRoom => resetRoomData s hostId

/-- Position of each phase in the forward order of the game. -/
def phaseIdx : GamePhase → Nat
  | GamePhase.LOBBY => 0
  | GamePhase.PROMPT => 1
  | GamePhase.SUBMITTING => 2
  | GamePhase.LISTENING => 3
  | GamePhase.VOTING => 4
  | GamePhase.REVEAL => 5
  | GamePhase.SCOREBOARD => 6
  | GamePhase.FINAL => 7

/-- The sequence of phases the document passes through under a sequence of
UI steps, starting phase included. -/
def phaseTrace (hostId : String) (s : GameState) : List Act → List GamePhase
  | [] => [s.phase]
  | a :: as => s.phase :: phaseTrace hostId (applyAct hostId s a) as

/-! ## The snapshot sanitiser (App.tsx:372-439)

The store pushes an arbitrary JSON document; `JVal` models the dynamic values
it can contain (JS `undefined` and `null` are conflated into `JVal.null`,
which is sound here because every `typeof` test in the sanitiser is guarded
by a truthiness test that excludes both). -/

/-- A dynamic JSON-like value as received from the store. -/
inductive JVal where
  | null
  | bool (b : Bool)
  | num (n : Int)
  | str (s : String)
  | arr (elems : List JVal)
  | obj (fields : List (String × JVal))

/-- JS property access `v.k`: the field's value in an object, otherwise
undefined (`JVal.null`). -/
def JVal.get (v : JVal) (k : String) : JVal :=
  match v with
  | JVal.obj fields =>
    match fields.find? (fun p => p.1 == k) with
    | some p => p.2
    | none => JVal.null
  | _ => JVal.null

/-- JS truthiness: `undefined`, `null`, `false`, `0` and `""` are falsy;
arrays and objects are always truthy. -/
def JVal.truthy : JVal → Bool
  | JVal.null => false
  | JVal.bool b => b
  | JVal.num n => n != 0
  | JVal.str s => s != ""
  | JVal.arr _ => true
  | JVal.obj _ => true

/-- A truthy value of object type (`x && typeof x === "object"`): arrays and
objects only (`null`, though of `typeof` "object", is falsy). -/
def JVal.isObjLike : JVal → Bool
  | JVal.arr _ => true
  | JVal.obj _ => true
  | _ => false

/-- `typeof x === "string"`. -/
def JVal.isStr : JVal → Bool
  | JVal.str _ => true
  | _ => false

mutual
/-- JS `String(x)` coercion. -/
def JVal.toStr : JVal → String
  | JVal.null => "null"
  | JVal.bool b => if b then "true" else "false"
  | JVal.num n => toString n
  | JVal.str s => s
  | JVal.arr xs => JVal.toStrList xs
  | JVal.obj _ => "[object Object]"

/-- JS array-to-string: elements joined with commas. -/
def JVal.toStrList : List JVal → String
  | [] => ""
  | [x] => JVal.toStr x
  | x :: xs => JVal.toStr x ++ "," ++ JVal.toStrList xs
end

/-- JS `String(x || d)` for a string default `d`. -/
def jsOrStr (v : JVal) (d : String) : String :=
  if v.truthy then v.toStr else d

/-- `typeof v === "number" ? v : d`. -/
def JVal.toNumD (v : JVal) (d : Int) : Int :=
  match v with
  | JVal.num n => n
  | _ => d

/-- The elements of a raw field when it is an array, else none
(`Array.isArray` guard). -/
def rawArr (v : JVal) : List JVal :=
  match v with
  | JVal.arr xs => xs
  | _ => []

/-- Whether a raw field is an array (`Array.isArray`). -/
def JVal.isArr : JVal → Bool
  | JVal.arr _ => true
  | _ => false

/-- First submission filter (App.tsx:384): `s && typeof s === "object"`. -/
def subFilter1 (s : JVal) : Bool := s.isObjLike

/-- Second submission filter (App.tsx:385-388):
`s.playerId && s.song && typeof s.song === "object"`. -/
def subFilter2 (s : JVal) : Bool :=
  (s.get "playerId").truthy && (s.get "song").isObjLike

/-- Third submission filter (App.tsx:389-392):
`typeof s.song.id === "string" && typeof s.song.title === "string"`. -/
def subFilter3 (s : JVal) : Bool :=
  ((s.get "song").get "id").isStr && ((s.get "song").get "title").isStr

/-- The submission mapper (App.tsx:393-404): coerce the retained fields to
strings, default artist and album art, default a missing/non-numeric
`roundId` to 0. -/
def mkSafeSubmission (s : JVal) : Submission :=
  { playerId := (s.get "playerId").toStr
    song :=
      { id := ((s.get "song").get "id").toStr
        title := ((s.get "song").get "title").toStr
        artist := jsOrStr ((s.get "song").get "artist") "Unknown"
        albumArt := jsOrStr ((s.get "song").get "albumArt") "https://picsum.photos/300/300" }
    roundId := (s.get "roundId").toNumD 0 }

/-- `safeSubmissions` (App.tsx:382-405). -/
def safeSubmissions (data : JVal) : List Submission :=
  match data.get "submissions" with
  | JVal.arr xs => (((xs.filter subFilter1).filter subFilter2).filter subFilter3).map mkSafeSubmission
  | _ => []

/-- First guess filter (App.tsx:409): `g && typeof g === "object"`. -/
def guessFilter1 (g : JVal) : Bool := g.isObjLike

/-- Second guess filter (App.tsx:410):
`g.voterId && g.submissionId && g.targetPlayerId`. -/
def guessFilter2 (g : JVal) : Bool :=
  (g.get "voterId").truthy && (g.get "submissionId").truthy &&
    (g.get "targetPlayerId").truthy

/-- The guess mapper (App.tsx:411-416). -/
def mkSafeGuess (g : JVal) : Guess :=
  { voterId := (g.get "voterId").toStr
    submissionId := (g.get "submissionId").toStr
    targetPlayerId := (g.get "targetPlayerId").toStr
    roundId := (g.get "roundId").toNumD 0 }

/-- `safeGuesses` (App.tsx:407-417). -/
def safeGuesses (data : JVal) : List Guess :=
  match data.get "guesses" with
  | JVal.arr xs => ((xs.filter guessFilter1).filter guessFilter2).map mkSafeGuess
  | _ => []

/-- The sanitised fields the subscription handler installs into local state
(App.tsx:424-433).  Raw players and questions are kept as dynamic values, as
in the source, which coerces neither. -/
structure SanitizedState where
  players : List JVal
  submissions : List Submission
  guesses : List Guess
  questions : List JVal
  roundId : Int

/-- `safePlayers` (App.tsx:380): the raw array, or `[]`. -/
def safePlayers (data : JVal) : List JVal := rawArr (data.get "players")

/-- `safeQuestions` (App.tsx:419-422): the raw array when non-empty,
otherwise the built-in list. -/
def safeQuestions (data : JVal) : List JVal :=
  match data.get "questions" with
  | JVal.arr xs => if xs.length != 0 then xs else INITIAL_QUESTIONS.map JVal.str
  | _ => INITIAL_QUESTIONS.map JVal.str

/-- The sanitisation body of the subscription handler (App.tsx:380-433),
total over every raw value; `prevRid` is the previous local `roundId`
(`prev.roundId ?? 0`). -/
def sanitizeSnapshot (prevRid : Int) (data : JVal) : SanitizedState :=
  { players := safePlayers data
    submissions := safeSubmissions data
    guesses := safeGuesses data
    questions := safeQuestions data
    roundId := (data.get "roundId").toNumD prevRid }

/-- The full handler (App.tsx:377-378): a falsy snapshot is ignored
(`if (!data) return`), otherwise the sanitised state is installed. -/
def handleSnapshot (prevRid : Int) (data : JVal) : Option SanitizedState :=
  if data.truthy then some (sanitizeSnapshot prevRid data) else none

/-! ## Sample data for concrete evaluations -/

/-- Concrete song used in concrete evaluations. -/
def songA : Song := { id := "sA", title := "Song A", artist := "A", albumArt := "art://a" }

/-- Concrete song used in concrete evaluations. -/
def songB : Song := { id := "sB", title := "Song B", artist := "B", albumArt := "art://b" }

/-- Concrete host player. -/
def hostP : Player := { id := "h", name := "Host", score := 0, isHost := true, avatar := "av://h" }

/-- Concrete non-host player. -/
def aliceP : Player := { id := "a", name := "Alice", score := 0, isHost := false, avatar := "av://a" }

/-- Concrete non-host player. -/
def bobP : Player := { id := "b", name := "Bob", score := 0, isHost := false, avatar := "av://b" }

/-! ## Helper lemmas -/

/-- `submitSong` never changes the round id, the roster, the room id or the
question list. -/
theorem submitSong_preserves (s : GameState) (pid : String) (song : Song) :
    (submitSong s pid song).roundId = s.roundId ∧
      (submitSong s pid song).players = s.players := by
  unfold submitSong
  dsimp only
  repeat' split
  all_goals exact ⟨rfl, rfl⟩

/-- `submitGuess` never changes the round id or the roster. -/
theorem submitGuess_preserves (s : GameState) (pid songId t : String) :
    (submitGuess s pid songId t).roundId = s.roundId ∧
      (submitGuess s pid songId t).players = s.players := by
  unfold submitGuess
  dsimp only
  repeat' split
  all_goals exact ⟨rfl, rfl⟩

/-- Count of a player's submissions tagged with a given round. -/
def subCount (s : GameState) (pid : String) (rid : Int) : Nat :=
  (s.submissions.filter (fun x => x.playerId == pid && x.roundId == rid)).length

/-! ## C3: round isolation of the derived views -/

/-- C3: the derived current-round views contain exactly the entries whose
`roundId` equals the room's current `roundId`; an entry tagged with round `R`
never appears in the derived view when `room.roundId ≠ R`. -/
theorem round_isolation :
    ∀ (s : GameState) (R : Int) (x : Submission) (g : Guess),
      (x ∈ currentSubmissions s ↔ x ∈ s.submissions ∧ x.roundId = s.roundId) ∧
      (g ∈ currentGuesses s ↔ g ∈ s.guesses ∧ g.roundId = s.roundId) ∧
      (x.roundId = R → s.roundId ≠ R → x ∉ currentSubmissions s) ∧
      (g.roundId = R → s.roundId ≠ R → g ∉ currentGuesses s) := by
  intro s R x g
  refine ⟨?_, ?_, ?_, ?_⟩
  · simp [currentSubmissions, List.mem_filter]
  · simp [currentGuesses, List.mem_filter]
  · intro hx hne hmem
    rcases List.mem_filter.mp hmem with ⟨-, h⟩
    exact hne (hx ▸ (beq_iff_eq.mp h).symm ▸ rfl)
  · intro hg hne hmem
    rcases List.mem_filter.mp hmem with ⟨-, h⟩
    exact hne (hg ▸ (beq_iff_eq.mp h).symm ▸ rfl)

/-- Witness for C3 at a concrete room: a submission tagged with round 0 is
not in the current view of a room whose round is 1. -/
theorem round_isolation_witness :
    { playerId := "a", song := songA, roundId := 0 : Submission } ∉
      currentSubmissions
        { roomId := "AB12", phase := GamePhase.VOTING, currentQuestionIndex := 0,
          questions := [], players := [hostP, aliceP],
          submissions := [{ playerId := "a", song := songA, roundId := 0 }],
          guesses := [], currentRevealIndex := 0, roundId := 1 } :=
  (round_isolation
      { roomId := "AB12", phase := GamePhase.VOTING, currentQuestionIndex := 0,
        questions := [], players := [hostP, aliceP],
        submissions := [{ playerId := "a", song := songA, roundId := 0 }],
        guesses := [], currentRevealIndex := 0, roundId := 1 }
      0 { playerId := "a", song := songA, roundId := 0 }
      { voterId := "a", submissionId := "k", targetPlayerId := "b", roundId := 0 }).2.2.1
    rfl (by decide)

/-! ## C1: submitSong transaction semantics -/

/-- When the acting player already has a current-round submission the
transaction returns the room unchanged. -/
theorem submitSong_noop (s : GameState) (pid : String) (song : Song)
    (hpid : pid ≠ "") (hh : isHostOf s pid = false)
    (hc : 0 < subCount s pid s.roundId) :
    submitSong s pid song = s := by
  obtain ⟨x, hxmem⟩ := List.exists_mem_of_length_pos hc
  rw [List.mem_filter] at hxmem
  obtain ⟨hxl, hxp⟩ := hxmem
  rw [Bool.and_eq_true, beq_iff_eq, beq_iff_eq] at hxp
  unfold submitSong
  dsimp only
  rw [if_neg (by simp [hpid]), if_neg (by simp [hh]), if_pos]
  exact List.any_eq_true.mpr
    ⟨x, List.mem_filter.mpr ⟨hxl, by simp [hxp.2]⟩, by simp [hxp.1]⟩

/-- When the acting player has no current-round submission, the transaction
appends the tagged submission and moves the phase to LISTENING exactly when
the new current-round count reaches the non-host player count. -/
theorem submitSong_append (s : GameState) (pid : String) (song : Song)
    (hpid : pid ≠ "") (hh : isHostOf s pid = false)
    (hc : subCount s pid s.roundId = 0) :
    (submitSong s pid song).submissions
        = s.submissions ++ [{ playerId := pid, song := song, roundId := s.roundId }] ∧
      ((currentSubmissions (submitSong s pid song)).length ≥ (nonHostPlayers s).length →
        (submitSong s pid song).phase = GamePhase.LISTENING) ∧
      ((currentSubmissions (submitSong s pid song)).length < (nonHostPlayers s).length →
        (submitSong s pid song).phase = s.phase) := by
  have h0 : ∀ x ∈ s.submissions, ¬(x.playerId = pid ∧ x.roundId = s.roundId) := by
    intro x hx hand
    have hnil : s.submissions.filter
        (fun x => x.playerId == pid && x.roundId == s.roundId) = [] :=
      List.length_eq_zero.mp hc
    have := List.filter_eq_nil_iff.mp hnil x hx
    simp [hand.1, hand.2] at this
  have hany : ¬((s.submissions.filter (fun x => x.roundId == s.roundId)).any
      (fun x => x.playerId == pid) = true) := by
    simp only [List.any_eq_true, List.mem_filter, not_exists]
    rintro x ⟨⟨hxl, hrid⟩, hpl⟩
    exact h0 x hxl ⟨beq_iff_eq.mp hpl, beq_iff_eq.mp hrid⟩
  unfold submitSong
  dsimp only
  rw [if_neg (by simp [hpid]), if_neg (by simp [hh]), if_neg hany]
  split
  case isTrue hcond =>
    refine ⟨rfl, fun _ => rfl, fun hlt => ?_⟩
    simp only [currentSubmissions, currentGuesses, nonHostPlayers] at hlt
    omega
  case isFalse hcond =>
    refine ⟨rfl, fun hge => ?_, fun _ => rfl⟩
    simp only [currentSubmissions, nonHostPlayers] at hge
    omega

/-- After a first successful submission the player's current-round count is
exactly one. -/
theorem submitSong_count_one (s : GameState) (pid : String) (song : Song)
    (hpid : pid ≠ "") (hh : isHostOf s pid = false)
    (hc : subCount s pid s.roundId = 0) :
    subCount (submitSong s pid song) pid s.roundId = 1 := by
  have happ := (submitSong_append s pid song hpid hh hc).1
  unfold subCount
  rw [happ, List.filter_append, List.length_append]
  have h1 : (s.submissions.filter
      (fun x => x.playerId == pid && x.roundId == s.roundId)).length = 0 := hc
  rw [h1]
  simp

/-- Once the count is one, every further submit attempt is a no-op. -/
theorem submitSong_foldl_keep (pid : String) (songs : List Song) :
    ∀ s : GameState, pid ≠ "" → isHostOf s pid = false →
      subCount s pid s.roundId = 1 →
      songs.foldl (fun st sg => submitSong st pid sg) s = s := by
  induction songs with
  | nil => intro s _ _ _; rfl
  | cons sg rest ih =>
    intro s hpid hh h1
    have hnoop : submitSong s pid sg = s :=
      submitSong_noop s pid sg hpid hh (by omega)
    simp only [List.foldl_cons, hnoop]
    exact ih s hpid hh h1

/-- C1: for a non-host player, `submitSong` is a no-op when a current-round
submission by that player already exists; otherwise it appends the round-
tagged submission, transitioning phase to LISTENING exactly when the
current-round count reaches the non-host player count — and after any
non-empty sequence of submit attempts starting from a round with no
submission by the player, exactly one submission by that player for the
round exists. -/
theorem submitSong_spec :
    ∀ (s : GameState) (pid : String) (song : Song),
      pid ≠ "" → isHostOf s pid = false →
      ((0 < subCount s pid s.roundId → submitSong s pid song = s) ∧
        (subCount s pid s.roundId = 0 →
          (submitSong s pid song).submissions
              = s.submissions ++ [{ playerId := pid, song := song, roundId := s.roundId }] ∧
            ((currentSubmissions (submitSong s pid song)).length ≥ (nonHostPlayers s).length →
              (submitSong s pid song).phase = GamePhase.LISTENING) ∧
            ((currentSubmissions (submitSong s pid song)).length < (nonHostPlayers s).length →
              (submitSong s pid song).phase = s.phase)) ∧
        (∀ songs : List Song, songs ≠ [] →
          subCount s pid s.roundId = 0 →
          subCount (songs.foldl (fun st sg => submitSong st pid sg) s) pid s.roundId = 1)) := by
  intro s pid song hpid hh
  refine ⟨fun hc => submitSong_noop s pid song hpid hh hc,
          fun hc => submitSong_append s pid song hpid hh hc, ?_⟩
  intro songs hne hc
  obtain ⟨sg, rest, rfl⟩ := List.exists_cons_of_ne_nil hne
  simp only [List.foldl_cons]
  have hrid : (submitSong s pid sg).roundId = s.roundId := (submitSong_preserves s pid sg).1
  have hpl : (submitSong s pid sg).players = s.players := (submitSong_preserves s pid sg).2
  have hh1 : isHostOf (submitSong s pid sg) pid = false := by
    unfold isHostOf at hh ⊢
    rw [hpl]
    exact hh
  have h1 : subCount (submitSong s pid sg) pid s.roundId = 1 :=
    submitSong_count_one s pid sg hpid hh hc
  have h1' : subCount (submitSong s pid sg) pid (submitSong s pid sg).roundId = 1 := by
    rw [hrid]; exact h1
  rw [submitSong_foldl_keep pid rest (submitSong s pid sg) hpid hh1 h1']
  exact h1

/-- Concrete submitting room: host plus Alice and Bob, round 0, empty
collections. -/
def subRoom : GameState :=
  { roomId := "AB12", phase := GamePhase.SUBMITTING, currentQuestionIndex := 0,
    questions := INITIAL_QUESTIONS, players := [hostP, aliceP, bobP],
    submissions := [], guesses := [], currentRevealIndex := 0, roundId := 0 }

/-- Witness for C1: Alice submits twice in round 0 of the concrete room;
exactly one submission by Alice for round 0 results. -/
theorem submitSong_spec_witness :
    subCount (List.foldl (fun st sg => submitSong st "a" sg) subRoom [songA, songB])
        "a" subRoom.roundId = 1 :=
  ((submitSong_spec subRoom "a" songA (by decide) (by decide)).2.2)
    [songA, songB] (by decide) (by decide)

/-! ## C2: submitGuess upsert semantics -/

/-- The current-round guesses by voter `v` for composite key `k`. -/
def guessesFor (s : GameState) (v k : String) : List Guess :=
  s.guesses.filter (fun g =>
    g.roundId == s.roundId && g.voterId == v && g.submissionId == k)

/-- One guess transaction leaves exactly one current-round guess by the
voter for the key, whatever was there before. -/
theorem submitGuess_step (s : GameState) (pid songId t : String)
    (hpid : pid ≠ "") (hh : isHostOf s pid = false) :
    guessesFor (submitGuess s pid songId t) pid (submissionKey songId s.roundId)
      = [{ voterId := pid, submissionId := submissionKey songId s.roundId,
           targetPlayerId := t, roundId := s.roundId }] := by
  unfold submitGuess guessesFor
  dsimp only
  rw [if_neg (by simp [hpid]), if_neg (by simp [hh])]
  rw [List.filter_append, List.filter_filter]
  simp

/-- C2: after any non-empty sequence of guesses by a non-host voter for the
same song in one round, exactly one current-round guess by that voter for
the composite key exists, and its target is the last one submitted. -/
theorem submitGuess_spec :
    ∀ (s : GameState) (pid songId : String) (targets : List String) (t : String),
      pid ≠ "" → isHostOf s pid = false → targets.getLast? = some t →
      guessesFor (targets.foldl (fun st tg => submitGuess st pid songId tg) s) pid
          (submissionKey songId s.roundId)
        = [{ voterId := pid, submissionId := submissionKey songId s.roundId,
             targetPlayerId := t, roundId := s.roundId }] := by
  intro s pid songId targets
  induction targets generalizing s with
  | nil => intro t _ _ h; simp at h
  | cons tg rest ih =>
    intro t hpid hh hlast
    cases rest with
    | nil =>
      simp only [List.getLast?_singleton, Option.some.injEq] at hlast
      subst hlast
      simpa only [List.foldl_cons, List.foldl_nil] using
        submitGuess_step s pid songId tg hpid hh
    | cons r2 rest2 =>
      have hlast' : (r2 :: rest2).getLast? = some t := by
        simpa only [List.getLast?_cons_cons] using hlast
      simp only [List.foldl_cons]
      have hpres := submitGuess_preserves s pid songId tg
      have hh1 : isHostOf (submitGuess s pid songId tg) pid = false := by
        unfold isHostOf at hh ⊢
        rw [hpres.2]
        exact hh
      have H := ih (submitGuess s pid songId tg) t hpid hh1 hlast'
      rw [hpres.1] at H
      exact H

/-- Witness for C2: Alice guesses twice for the same key in the concrete
room; exactly one guess results and it records the last target. -/
theorem submitGuess_spec_witness :
    guessesFor (List.foldl (fun st tg => submitGuess st "a" "sB" tg) subRoom ["h", "b"])
        "a" (submissionKey "sB" subRoom.roundId)
      = [{ voterId := "a", submissionId := submissionKey "sB" subRoom.roundId,
           targetPlayerId := "b", roundId := subRoom.roundId }] :=
  submitGuess_spec subRoom "a" "sB" ["h", "b"] "b" (by decide) (by decide) (by decide)

/-! ## C4: the scoring step -/

/-- The correct-guess count in the claim's wording: current-round guesses by
the player whose target equals the true owner of the guessed submission,
looked up by composite key. -/
def claimCorrectCount (s : GameState) (pid : String) : Nat :=
  ((currentGuesses s).filter (fun g => g.voterId == pid)).countP
    (fun g =>
      mapGet (buildOwnerMap (currentSubmissions s) s.roundId) g.submissionId
        == some g.targetPlayerId)

/-- A successful `mapGet` returns a pair of the association list. -/
theorem mapGet_mem {m : List (String × String)} {k v : String}
    (h : mapGet m k = some v) : (k, v) ∈ m := by
  unfold mapGet at h
  cases hf : m.find? (fun p => p.1 == k) with
  | none => rw [hf] at h; exact absurd h (by simp)
  | some p =>
    rw [hf] at h
    simp only [Option.map_some', Option.some.injEq] at h
    have hmem := List.mem_of_find?_eq_some hf
    have hk0 := List.find?_some hf
    have hk : p.1 = k := beq_iff_eq.mp hk0
    obtain ⟨p1, p2⟩ := p
    dsimp at h hk
    subst h hk
    exact hmem

/-- A pair of `mapSet m k v` is a pair of `m` or the inserted pair. -/
theorem mem_mapSet {m : List (String × String)} {k v : String} {p : String × String}
    (h : p ∈ mapSet m k v) : p ∈ m ∨ p = (k, v) := by
  unfold mapSet at h
  split at h
  · rcases List.mem_map.mp h with ⟨q, hq, hpq⟩
    by_cases hqk : (q.1 == k) = true
    · right; rw [if_pos hqk] at hpq; exact hpq.symm
    · left; rw [if_neg hqk] at hpq; exact hpq ▸ hq
  · rcases List.mem_append.mp h with h1 | h1
    · left; exact h1
    · right; simpa using h1

/-- Every value in the owner map built by folding `mapSet` satisfies any
property holding of the seed values and of all inserted player ids. -/
theorem foldl_mapSet_values (P : String → Prop) :
    ∀ (l : List Submission) (m : List (String × String)) (rid : Int),
      (∀ p ∈ m, P p.2) → (∀ x ∈ l, P x.playerId) →
      ∀ p ∈ l.foldl (fun acc x => mapSet acc (submissionKey x.song.id rid) x.playerId) m,
        P p.2 := by
  intro l
  induction l with
  | nil => intro m rid hm _ p hp; exact hm p hp
  | cons x xs ih =>
    intro m rid hm hl p hp
    simp only [List.foldl_cons] at hp
    refine ih _ rid ?_ (fun y hy => hl y (List.mem_cons_of_mem _ hy)) p hp
    intro q hq
    rcases mem_mapSet hq with h | h
    · exact hm q h
    · rw [h]; exact hl x (List.mem_cons_self x xs)

/-- C4: at the last reveal index, `nextReveal` writes phase SCOREBOARD
together with the re-scored roster: host players unchanged, every non-host
player's score increased by 10 per correct current-round guess. -/
theorem nextReveal_scoring :
    ∀ (s : GameState) (hid : String),
      isHostOf s hid = true →
      s.currentRevealIndex ≥ (currentSubmissions s).length - 1 →
      (∀ x ∈ currentSubmissions s, x.playerId ≠ "") →
      (nextReveal s hid).phase = GamePhase.SCOREBOARD ∧
        (nextReveal s hid).players = s.players.map (fun p =>
          if p.isHost then p
          else { p with score := p.score + (claimCorrectCount s p.id : Int) * 10 }) := by
  intro s hid hh hlast hne
  have hcc : ∀ pid, correctCount s pid = claimCorrectCount s pid := by
    intro pid
    unfold correctCount claimCorrectCount
    dsimp only
    rw [List.countP_eq_length_filter, List.countP_eq_length_filter]
    rw [List.filter_congr]
    intro g _
    cases ho : mapGet (buildOwnerMap (currentSubmissions s) s.roundId) g.submissionId with
    | none => simp
    | some o =>
      have hmem := mapGet_mem ho
      have hone : o ≠ "" :=
        foldl_mapSet_values (fun v => v ≠ "") (currentSubmissions s) [] s.roundId
          (by simp) (fun x hx => hne x hx) _ hmem
      simp [hone]
  unfold nextReveal
  rw [if_neg (by simp [hh]), if_pos hlast]
  exact ⟨rfl, by simp only [hcc]⟩

/-- Concrete reveal-phase room: Alice and Bob submitted in round 0; Alice's
guess for Bob's song is correct, Bob's guess for Alice's song is wrong. -/
def revealRoom : GameState :=
  { roomId := "AB12", phase := GamePhase.REVEAL, currentQuestionIndex := 0,
    questions := INITIAL_QUESTIONS, players := [hostP, aliceP, bobP],
    submissions := [{ playerId := "a", song := songA, roundId := 0 },
                    { playerId := "b", song := songB, roundId := 0 }],
    guesses := [{ voterId := "a", submissionId := "0:sB", targetPlayerId := "b", roundId := 0 },
                { voterId := "b", submissionId := "0:sA", targetPlayerId := "h", roundId := 0 }],
    currentRevealIndex := 1, roundId := 0 }

/-- Witness for C4 at the concrete reveal-phase room. -/
theorem nextReveal_scoring_witness :
    (nextReveal revealRoom "h").phase = GamePhase.SCOREBOARD :=
  (nextReveal_scoring revealRoom "h" (by decide) (by decide) (by decide)).1

/-! ## C7: the scoring step cannot re-enter -/

/-- C7: from REVEAL at the last reveal index, the reveal-advance step scores
and moves to SCOREBOARD; because the control only exists in the REVEAL view,
a second activation is a no-op, leaving every score unchanged. -/
theorem scoring_not_reentrant :
    ∀ (s : GameState) (hid : String),
      isHostOf s hid = true →
      s.phase = GamePhase.REVEAL →
      s.currentRevealIndex ≥ (currentSubmissions s).length - 1 →
      (applyAct hid s Act.nextReveal).phase = GamePhase.SCOREBOARD ∧
        applyAct hid (applyAct hid s Act.nextReveal) Act.nextReveal
          = applyAct hid s Act.nextReveal := by
  intro s hid hh hph hlast
  have h1 : applyAct hid s Act.nextReveal = nextReveal s hid := by
    unfold applyAct actEnabled
    rw [hph]
    simp
  have h2 : (nextReveal s hid).phase = GamePhase.SCOREBOARD := by
    unfold nextReveal
    rw [if_neg (by simp [hh]), if_pos hlast]
  refine ⟨h1 ▸ h2, ?_⟩
  rw [h1]
  simp [applyAct, actEnabled, h2]

/-- Witness for C7 at the concrete reveal-phase room. -/
theorem scoring_not_reentrant_witness :
    applyAct "h" (applyAct "h" revealRoom Act.nextReveal) Act.nextReveal
      = applyAct "h" revealRoom Act.nextReveal :=
  (scoring_not_reentrant revealRoom "h" (by decide) rfl (by decide)).2

/-! ## C6: phase monotonicity -/

/-- Relation between consecutive written phases: forward in the round order,
the SCOREBOARD→PROMPT loop, or the reset to LOBBY. -/
def PhaseStepOk (p q : GamePhase) : Prop :=
  phaseIdx p ≤ phaseIdx q ∨ (p = GamePhase.SCOREBOARD ∧ q = GamePhase.PROMPT) ∨
    q = GamePhase.LOBBY

/-- Every single UI step moves the phase forward, around the scoreboard
loop, or back to LOBBY (reset only). -/
theorem applyAct_phaseStep (hid : String) (s : GameState) (a : Act) :
    PhaseStepOk s.phase (applyAct hid s a).phase := by
  have hrefl : PhaseStepOk s.phase s.phase := Or.inl (le_refl _)
  cases a with
  | startGame svc rand =>
    unfold applyAct
    dsimp only
    split
    · exact hrefl
    next hen =>
      rw [Bool.not_eq_true', Bool.not_eq_false] at hen
      have hp : s.phase = GamePhase.LOBBY := by simpa [actEnabled] using hen
      unfold startGame
      dsimp only
      split
      · exact hrefl
      split
      · exact hrefl
      · simp [PhaseStepOk, hp, phaseIdx]
  | openSubmissions =>
    unfold applyAct
    dsimp only
    split
    · exact hrefl
    next hen =>
      rw [Bool.not_eq_true', Bool.not_eq_false] at hen
      have hp : s.phase = GamePhase.PROMPT := by simpa [actEnabled] using hen
      unfold openSubmissions
      split
      · exact hrefl
      · simp [PhaseStepOk, hp, phaseIdx]
  | submitSong pid song =>
    unfold applyAct
    dsimp only
    split
    · exact hrefl
    next hen =>
      rw [Bool.not_eq_true', Bool.not_eq_false] at hen
      have hp : s.phase = GamePhase.SUBMITTING := by simpa [actEnabled] using hen
      unfold submitSong
      dsimp only
      split
      · exact hrefl
      split
      · exact hrefl
      split
      · exact hrefl
      split
      · simp [PhaseStepOk, hp, phaseIdx]
      · exact hrefl
  | forceStartListening =>
    unfold applyAct
    dsimp only
    split
    · exact hrefl
    next hen =>
      rw [Bool.not_eq_true', Bool.not_eq_false] at hen
      have hp : s.phase = GamePhase.SUBMITTING := by simpa [actEnabled] using hen
      unfold forceStartListening
      split
      · exact hrefl
      · simp [PhaseStepOk, hp, phaseIdx]
  | startVoting =>
    unfold applyAct
    dsimp only
    split
    · exact hrefl
    next hen =>
      rw [Bool.not_eq_true', Bool.not_eq_false] at hen
      have hp : s.phase = GamePhase.LISTENING := by simpa [actEnabled] using hen
      unfold startVoting
      split
      · exact hrefl
      · simp [PhaseStepOk, hp, phaseIdx]
  | submitGuess pid songId t =>
    unfold applyAct
    dsimp only
    split
    · exact hrefl
    · unfold submitGuess
      dsimp only
      split
      · exact hrefl
      split
      · exact hrefl
      · exact hrefl
  | finalizeGuesses =>
    unfold applyAct
    dsimp only
    split
    · exact hrefl
    next hen =>
      rw [Bool.not_eq_true', Bool.not_eq_false] at hen
      have hp : s.phase = GamePhase.VOTING := by simpa [actEnabled] using hen
      unfold finalizeGuesses
      split
      · exact hrefl
      · simp [PhaseStepOk, hp, phaseIdx]
  | nextReveal =>
    unfold applyAct
    dsimp only
    split
    · exact hrefl
    next hen =>
      rw [Bool.not_eq_true', Bool.not_eq_false] at hen
      have hp : s.phase = GamePhase.REVEAL := by simpa [actEnabled] using hen
      unfold nextReveal
      dsimp only
      split
      · exact hrefl
      split
      · simp [PhaseStepOk, hp, phaseIdx]
      · exact hrefl
  | nextQuestion =>
    unfold applyAct
    dsimp only
    split
    · exact hrefl
    next hen =>
      rw [Bool.not_eq_true', Bool.not_eq_false] at hen
      have hp : s.phase = GamePhase.SCOREBOARD := by simpa [actEnabled] using hen
      unfold nextQuestion
      split
      · exact hrefl
      split
      · simp [PhaseStepOk, hp, phaseIdx]
      · exact Or.inr (Or.inl ⟨hp, rfl⟩)
  | resetRoom =>
    unfold applyAct
    dsimp only
    split
    · exact hrefl
    · unfold resetRoomData
      split
      · exact hrefl
      · exact Or.inr (Or.inr rfl)

/-- The phase trace always starts with the current phase. -/
theorem phaseTrace_head (hid : String) (s : GameState) (as : List Act) :
    (phaseTrace hid s as).head? = some s.phase := by
  cases as <;> rfl

/-- C6 (amended): along every sequence of UI steps, consecutive written
phases move forward in the order LOBBY, PROMPT, SUBMITTING, LISTENING,
VOTING, REVEAL, SCOREBOARD, FINAL, or take the SCOREBOARD→PROMPT loop, or
return to LOBBY via the host's reset action. -/
theorem phase_monotonic_amended :
    ∀ (hid : String) (as : List Act) (s : GameState),
      (phaseTrace hid s as).Chain' PhaseStepOk := by
  intro hid as
  induction as with
  | nil => intro s; simp [phaseTrace]
  | cons a rest ih =>
    intro s
    rw [phaseTrace, List.chain'_cons']
    refine ⟨?_, ih _⟩
    intro q hq
    rw [phaseTrace_head, Option.mem_def, Option.some.injEq] at hq
    subst hq
    exact applyAct_phaseStep hid s a

/-- Concrete mid-game room in VOTING phase. -/
def votingRoom : GameState :=
  { roomId := "AB12", phase := GamePhase.VOTING, currentQuestionIndex := 2,
    questions := INITIAL_QUESTIONS, players := [hostP, aliceP, bobP],
    submissions := [{ playerId := "a", song := songA, roundId := 2 }],
    guesses := [], currentRevealIndex := 0, roundId := 2 }

/-- Counterexample for C6 as stated: from VOTING, the host's reset action —
rendered by the in-game settings dialog — writes phase LOBBY, a backward
move that is not the SCOREBOARD→PROMPT loop. -/
theorem reset_moves_phase_backward :
    (applyAct "h" votingRoom Act.resetRoom).phase = GamePhase.LOBBY ∧
      phaseIdx (applyAct "h" votingRoom Act.resetRoom).phase
          < phaseIdx votingRoom.phase ∧
      ¬(votingRoom.phase = GamePhase.SCOREBOARD ∧
        (applyAct "h" votingRoom Act.resetRoom).phase = GamePhase.PROMPT) := by
  decide

/-! ## C5: advancing the game clears the collections -/

/-- Concrete scoreboard-phase room with round-0 history. -/
def scoreboardRoom : GameState :=
  { roomId := "AB12", phase := GamePhase.SCOREBOARD, currentQuestionIndex := 0,
    questions := INITIAL_QUESTIONS, players := [hostP, aliceP, bobP],
    submissions := [{ playerId := "a", song := songA, roundId := 0 }],
    guesses := [{ voterId := "a", submissionId := "0:sA", targetPlayerId := "b", roundId := 0 }],
    currentRevealIndex := 0, roundId := 0 }

/-- Counterexample for C5 as stated: advancing the game physically deletes
history — `nextQuestion` and `openSubmissions` write empty arrays over a
room that holds a round-0 submission and guess. -/
theorem advance_deletes_history :
    scoreboardRoom.submissions ≠ [] ∧
      scoreboardRoom.guesses ≠ [] ∧
      (nextQuestion scoreboardRoom "h").submissions = [] ∧
      (nextQuestion scoreboardRoom "h").guesses = [] ∧
      (openSubmissions scoreboardRoom "h").submissions = [] ∧
      (openSubmissions scoreboardRoom "h").guesses = [] := by
  decide

/-- C5 (amended): the round-advancing operations clear both collections
outright (in addition to round tagging): `openSubmissions` always writes
empty arrays, and `nextQuestion` below the last question writes empty
arrays, a fresh `roundId`, and phase PROMPT. -/
theorem advance_clears_collections :
    ∀ (s : GameState) (hid : String), isHostOf s hid = true →
      (openSubmissions s hid).submissions = [] ∧
        (openSubmissions s hid).guesses = [] ∧
        (s.currentQuestionIndex < 9 →
          (nextQuestion s hid).submissions = [] ∧
            (nextQuestion s hid).guesses = [] ∧
            (nextQuestion s hid).roundId = s.roundId + 1 ∧
            (nextQuestion s hid).phase = GamePhase.PROMPT) := by
  intro s hid hh
  unfold openSubmissions nextQuestion
  rw [if_neg (by simp [hh]), if_neg (by simp [hh])]
  refine ⟨rfl, rfl, fun hlt => ?_⟩
  rw [if_neg (by omega)]
  exact ⟨rfl, rfl, rfl, rfl⟩

/-- Witness for the amended C5 at the concrete scoreboard room. -/
theorem advance_clears_collections_witness :
    (nextQuestion scoreboardRoom "h").submissions = [] :=
  ((advance_clears_collections scoreboardRoom "h" (by decide)).2.2 (by decide)).1

/-! ## C8: startGame falls back to the built-in prompts -/

/-- Pulling an indexed element to the front of a list after overwriting its
slot is a permutation of pushing the new element on front. -/
theorem cons_set_perm {α : Type} :
    ∀ (t : List α) (k : Nat) (x y : α), t.get? k = some y →
      (y :: t.set k x).Perm (x :: t) := by
  intro t
  induction t with
  | nil => intro k x y h; simp at h
  | cons hd tl ih =>
    intro k x y h
    cases k with
    | zero =>
      injection h with h2
      subst h2
      exact List.Perm.swap x hd tl
    | succ k' =>
      have h' : tl.get? k' = some y := h
      simp only [List.set]
      exact ((List.Perm.swap hd y _).trans
        (List.Perm.cons hd (ih k' x y h'))).trans (List.Perm.swap x hd tl)

/-- The two-`set` swap of in-range indices permutes the list. -/
theorem swap_set_perm {α : Type} :
    ∀ (a : List α) (i j : Nat) (x y : α),
      a.get? i = some x → a.get? j = some y →
      ((a.set i y).set j x).Perm a := by
  intro a
  induction a with
  | nil => intro i j x y h _; simp at h
  | cons hd tl ih =>
    intro i j x y hx hy
    cases i with
    | zero =>
      injection hx with h1
      subst h1
      cases j with
      | zero =>
        injection hy with h2
        subst h2
        simp
      | succ j' =>
        have hy' : tl.get? j' = some y := hy
        simp only [List.set]
        exact cons_set_perm tl j' hd y hy'
    | succ i' =>
      have hx' : tl.get? i' = some x := hx
      cases j with
      | zero =>
        injection hy with h2
        subst h2
        simp only [List.set]
        exact cons_set_perm tl i' hd x hx'
      | succ j' =>
        have hy' : tl.get? j' = some y := hy
        simp only [List.set]
        exact List.Perm.cons hd (ih i' j' x y hx' hy')

/-- Each Fisher–Yates swap permutes the list. -/
theorem swapList_perm {α : Type} (a : List α) (i j : Nat) :
    (swapList a i j).Perm a := by
  unfold swapList
  split
  next x y hx hy => exact swap_set_perm a i j x y hx hy
  next => exact List.Perm.refl a

/-- The shuffle loop permutes the list. -/
theorem shuffleAux_perm {α : Type} (rand : Nat → Nat) :
    ∀ (n : Nat) (a : List α), (shuffleAux rand n a).Perm a := by
  intro n
  induction n with
  | zero => intro a; exact List.Perm.refl a
  | succ k ih =>
    intro a
    exact (ih _).trans (swapList_perm a (k + 1) (rand (k + 1) % (k + 2)))

/-- `shuffle` returns a permutation of its input. -/
theorem shuffle_perm {α : Type} (rand : Nat → Nat) (arr : List α) :
    (shuffle rand arr).Perm arr :=
  shuffleAux_perm rand _ arr

/-- With host and player-count guards passed, `startGame` writes the shuffled
question list, round 0 and phase PROMPT. -/
theorem startGame_eval (s : GameState) (hid : String) (rand : Nat → Nat)
    (svc : Option (List String))
    (hh : isHostOf s hid = true) (hlen : 2 ≤ (nonHostPlayers s).length) :
    startGame s hid svc rand =
      { s with
          questions := shuffle rand
            (match svc with
             | some generated =>
               if generated.length > 0 then generated else INITIAL_QUESTIONS
             | none => INITIAL_QUESTIONS)
          currentQuestionIndex := 0
          roundId := 0
          phase := GamePhase.PROMPT
          submissions := []
          guesses := []
          currentRevealIndex := 0 } := by
  unfold startGame
  rw [if_neg (by simp [hh]), if_neg (by omega)]

/-- C8: when the question-generation call fails — by throwing or by
returning an empty list — `startGame` still moves the LOBBY room to PROMPT,
with its question list a permutation of the built-in ten prompts. -/
theorem startGame_fallback :
    ∀ (s : GameState) (hid : String) (rand : Nat → Nat),
      isHostOf s hid = true → s.phase = GamePhase.LOBBY →
      2 ≤ (nonHostPlayers s).length →
      ((startGame s hid none rand).phase = GamePhase.PROMPT ∧
        (startGame s hid none rand).questions.Perm INITIAL_QUESTIONS) ∧
      ((startGame s hid (some []) rand).phase = GamePhase.PROMPT ∧
        (startGame s hid (some []) rand).questions.Perm INITIAL_QUESTIONS) ∧
      INITIAL_QUESTIONS.length = 10 := by
  intro s hid rand hh _ hlen
  rw [startGame_eval s hid rand none hh hlen,
    startGame_eval s hid rand (some []) hh hlen]
  exact ⟨⟨rfl, shuffle_perm rand INITIAL_QUESTIONS⟩,
    ⟨rfl, shuffle_perm rand INITIAL_QUESTIONS⟩, rfl⟩

/-- Concrete lobby room with two non-host players. -/
def lobbyRoom : GameState :=
  { roomId := "AB12", phase := GamePhase.LOBBY, currentQuestionIndex := 0,
    questions := INITIAL_QUESTIONS, players := [hostP, aliceP, bobP],
    submissions := [], guesses := [], currentRevealIndex := 0, roundId := 0 }

/-- Witness for C8: a failing service call still moves the concrete lobby
room to PROMPT. -/
theorem startGame_fallback_witness :
    (startGame lobbyRoom "h" none (fun _ => 0)).phase = GamePhase.PROMPT :=
  (startGame_fallback lobbyRoom "h" (fun _ => 0) (by decide) rfl (by decide)).1.1

/-! ## C9: the all-guesses-complete predicate -/

/-- The all-guesses-complete predicate in the claim's wording: every
current-round submission not authored by the voter has a current-round guess
by the voter for its composite key. -/
def allGuessesCompleteSpec (s : GameState) (v : String) : Prop :=
  ∀ x ∈ currentSubmissions s, x.playerId ≠ v →
    ∃ g ∈ currentGuesses s,
      g.voterId = v ∧ g.submissionId = submissionKey x.song.id s.roundId

/-- Concrete voting-phase room with no submissions at all. -/
def emptyVotingRoom : GameState :=
  { roomId := "AB12", phase := GamePhase.VOTING, currentQuestionIndex := 0,
    questions := INITIAL_QUESTIONS, players := [hostP, aliceP, bobP],
    submissions := [], guesses := [], currentRevealIndex := 0, roundId := 0 }

/-- Counterexample for C9 as stated: in a room with zero mystery
submissions the claimed predicate holds vacuously, yet the derived flag is
false — the code additionally requires at least one mystery submission. -/
theorem allGuesses_vacuous_counterexample :
    allGuessesCompleteSpec emptyVotingRoom "a" ∧
      allGuessesCompleted emptyVotingRoom "a" = false := by
  constructor
  · intro x hx
    simp [currentSubmissions, emptyVotingRoom] at hx
  · decide

/-- C9 (amended): the derived flag is true iff there is at least one
current-round submission not authored by the voter and every such submission
has a current-round guess by the voter for its composite key. -/
theorem allGuessesCompleted_iff :
    ∀ (s : GameState) (v : String),
      allGuessesCompleted s v = true ↔
        ((currentSubmissions s).filter (fun x => !(x.playerId == v)) ≠ [] ∧
          allGuessesCompleteSpec s v) := by
  intro s v
  unfold allGuessesCompleted allGuessesCompleteSpec
  dsimp only
  rw [Bool.and_eq_true]
  constructor
  · rintro ⟨h1, h2⟩
    have h1' : (currentSubmissions s).filter (fun x => !(x.playerId == v)) ≠ [] := by
      rw [← List.length_pos]
      simpa using h1
    refine ⟨h1', ?_⟩
    intro x hx hxp
    have hxm : x ∈ (currentSubmissions s).filter (fun x => !(x.playerId == v)) :=
      List.mem_filter.mpr ⟨hx, by simp [hxp]⟩
    have hall := List.all_eq_true.mp h2 x hxm
    rcases List.any_eq_true.mp hall with ⟨g, hg, hgk⟩
    rcases List.mem_filter.mp hg with ⟨hgc, hgv⟩
    exact ⟨g, hgc, beq_iff_eq.mp hgv, beq_iff_eq.mp hgk⟩
  · rintro ⟨h1, h2⟩
    refine ⟨by simpa [List.length_pos] using h1, ?_⟩
    rw [List.all_eq_true]
    intro x hx
    rcases List.mem_filter.mp hx with ⟨hxc, hxp⟩
    rcases h2 x hxc (by simpa using hxp) with ⟨g, hgc, hgv, hgk⟩
    exact List.any_eq_true.mpr
      ⟨g, List.mem_filter.mpr ⟨hgc, by simp [hgv]⟩, by simp [hgk]⟩

/-! ## C10: the snapshot sanitiser is total and well-typed -/

/-- `typeof v === "number"`. -/
def JVal.isNum : JVal → Bool
  | JVal.num _ => true
  | _ => false

/-- C10: for every raw snapshot value, the sanitiser yields a well-typed
state: the four collections are always lists (empty when the raw field is
not an array), questions default to the built-in list when absent or empty,
exactly the entries passing the type filters are retained (coerced to
string-typed records), and an entry whose `roundId` is not a number is kept
and tagged with round 0 rather than dropped. -/
theorem sanitize_total_welltyped :
    ∀ (data : JVal) (prevRid : Int),
      ((data.get "players").isArr = false →
        (sanitizeSnapshot prevRid data).players = []) ∧
      ((data.get "submissions").isArr = false →
        (sanitizeSnapshot prevRid data).submissions = []) ∧
      ((data.get "guesses").isArr = false →
        (sanitizeSnapshot prevRid data).guesses = []) ∧
      ((data.get "questions").isArr = false →
        (sanitizeSnapshot prevRid data).questions = INITIAL_QUESTIONS.map JVal.str) ∧
      (data.get "questions" = JVal.arr [] →
        (sanitizeSnapshot prevRid data).questions = INITIAL_QUESTIONS.map JVal.str) ∧
      (∀ e ∈ rawArr (data.get "submissions"),
        subFilter1 e = true → subFilter2 e = true → subFilter3 e = true →
          mkSafeSubmission e ∈ (sanitizeSnapshot prevRid data).submissions ∧
            ((e.get "roundId").isNum = false → (mkSafeSubmission e).roundId = 0)) ∧
      (∀ x ∈ (sanitizeSnapshot prevRid data).submissions,
        ∃ e ∈ rawArr (data.get "submissions"),
          subFilter1 e = true ∧ subFilter2 e = true ∧ subFilter3 e = true ∧
            x = mkSafeSubmission e) ∧
      (∀ e ∈ rawArr (data.get "guesses"),
        guessFilter1 e = true → guessFilter2 e = true →
          mkSafeGuess e ∈ (sanitizeSnapshot prevRid data).guesses ∧
            ((e.get "roundId").isNum = false → (mkSafeGuess e).roundId = 0)) ∧
      (∀ g ∈ (sanitizeSnapshot prevRid data).guesses,
        ∃ e ∈ rawArr (data.get "guesses"),
          guessFilter1 e = true ∧ guessFilter2 e = true ∧ g = mkSafeGuess e) := by
  intro data prevRid
  refine ⟨?_, ?_, ?_, ?_, ?_, ?_, ?_, ?_, ?_⟩
  · intro h
    show rawArr (data.get "players") = []
    cases hp : data.get "players" <;>
      first
        | rfl
        | (rw [hp] at h; simp [JVal.isArr] at h)
  · intro h
    show safeSubmissions data = []
    unfold safeSubmissions
    cases hp : data.get "submissions" <;>
      first
        | rfl
        | (rw [hp] at h; simp [JVal.isArr] at h)
  · intro h
    show safeGuesses data = []
    unfold safeGuesses
    cases hp : data.get "guesses" <;>
      first
        | rfl
        | (rw [hp] at h; simp [JVal.isArr] at h)
  · intro h
    show safeQuestions data = INITIAL_QUESTIONS.map JVal.str
    unfold safeQuestions
    cases hp : data.get "questions" <;>
      first
        | rfl
        | (rw [hp] at h; simp [JVal.isArr] at h)
  · intro h
    show safeQuestions data = INITIAL_QUESTIONS.map JVal.str
    unfold safeQuestions
    rw [h]
    simp
  · intro e he h1 h2 h3
    constructor
    · show mkSafeSubmission e ∈ safeSubmissions data
      unfold safeSubmissions
      cases hq : data.get "submissions"
      case arr xs =>
        rw [hq] at he
        exact List.mem_map_of_mem _
          (List.mem_filter.mpr
            ⟨List.mem_filter.mpr ⟨List.mem_filter.mpr ⟨he, h1⟩, h2⟩, h3⟩)
      all_goals (rw [hq] at he; simp [rawArr] at he)
    · intro hnum
      show (e.get "roundId").toNumD 0 = 0
      unfold JVal.toNumD
      split
      next n heq => rw [heq] at hnum; simp [JVal.isNum] at hnum
      next => rfl
  · intro x hx
    have hx' : x ∈ safeSubmissions data := hx
    unfold safeSubmissions at hx'
    cases hq : data.get "submissions"
    case arr xs =>
      rw [hq] at hx'
      dsimp only at hx'
      rcases List.mem_map.mp hx' with ⟨e, he, rfl⟩
      rcases List.mem_filter.mp he with ⟨he2, h3⟩
      rcases List.mem_filter.mp he2 with ⟨he1, h2⟩
      rcases List.mem_filter.mp he1 with ⟨hee, h1⟩
      exact ⟨e, hee, h1, h2, h3, rfl⟩
    all_goals (rw [hq] at hx'; simp at hx')
  · intro e he h1 h2
    constructor
    · show mkSafeGuess e ∈ safeGuesses data
      unfold safeGuesses
      cases hq : data.get "guesses"
      case arr xs =>
        rw [hq] at he
        exact List.mem_map_of_mem _
          (List.mem_filter.mpr ⟨List.mem_filter.mpr ⟨he, h1⟩, h2⟩)
      all_goals (rw [hq] at he; simp [rawArr] at he)
    · intro hnum
      show (e.get "roundId").toNumD 0 = 0
      unfold JVal.toNumD
      split
      next n heq => rw [heq] at hnum; simp [JVal.isNum] at hnum
      next => rfl
  · intro g hg
    have hg' : g ∈ safeGuesses data := hg
    unfold safeGuesses at hg'
    cases hq : data.get "guesses"
    case arr xs =>
      rw [hq] at hg'
      dsimp only at hg'
      rcases List.mem_map.mp hg' with ⟨e, he, rfl⟩
      rcases List.mem_filter.mp he with ⟨he1, h2⟩
      rcases List.mem_filter.mp he1 with ⟨hee, h1⟩
      exact ⟨e, hee, h1, h2, rfl⟩
    all_goals (rw [hq] at hg'; simp at hg')

/-- A raw submission entry that passes every filter but has no `roundId`. -/
def rawGoodSub : JVal :=
  JVal.obj [("playerId", JVal.str "a"),
            ("song", JVal.obj [("id", JVal.str "sA"), ("title", JVal.str "Song A")])]

/-- A malformed raw snapshot: junk among the submissions, an empty questions
array, a numeric guesses field and a string room `roundId`. -/
def rawSnap : JVal :=
  JVal.obj [("submissions", JVal.arr [JVal.null, JVal.str "junk", rawGoodSub]),
            ("questions", JVal.arr []),
            ("guesses", JVal.num 3),
            ("roundId", JVal.str "x")]

/-- Witness for C10: the well-formed entry of the malformed snapshot is
retained and, lacking a numeric `roundId`, tagged with round 0. -/
theorem sanitize_total_welltyped_witness :
    mkSafeSubmission rawGoodSub ∈ (sanitizeSnapshot 7 rawSnap).submissions ∧
      (mkSafeSubmission rawGoodSub).roundId = 0 :=
  ⟨((sanitize_total_welltyped rawSnap 7).2.2.2.2.2.1 rawGoodSub
      (List.Mem.tail _ (List.Mem.tail _ (List.Mem.head _))) rfl rfl rfl).1,
    ((sanitize_total_welltyped rawSnap 7).2.2.2.2.2.1 rawGoodSub
      (List.Mem.tail _ (List.Mem.tail _ (List.Mem.head _))) rfl rfl rfl).2 rfl⟩

end TuneTrivia
